import Mathlib

/-!
Shallow embedding of the peer-discovery and membership subsystem of the
repository: the epoch-start system state transformation
(src/crates/sui-types/src/sui_system_state/epoch_start_sui_system_state.rs)
and the PeerDirectory / DiscoveryServer operations of the discovery module,
whose implementation is exercised by src/crates/sui-network/src/discovery/tests.rs.
Maps (Rust BTreeMap / HashMap) are embedded as association lists with
replace-on-insert semantics; lookups and key sets agree with the Rust maps.
-/

set_option autoImplicit false

namespace SuiDiscovery

universe u v w

/-- Association-list lookup: the value of the first entry with the given key. -/
def alookup {α : Type u} {β : Type v} [DecidableEq α] : List (α × β) → α → Option β
  | [], _ => none
  | (a, b) :: t, k => if a = k then some b else alookup t k

/-- Association-list insert with map semantics: replace the first entry with
the given key, or append a new entry when the key is absent.  This embeds the
insert operation of Rust's BTreeMap / HashMap on unique-key tables. -/
def upsertKey {α : Type u} {β : Type v} [DecidableEq α] : List (α × β) → α → β → List (α × β)
  | [], k, v => [(k, v)]
  | (a, b) :: t, k, v => if a = k then (k, v) :: t else (a, b) :: upsertKey t k v

/-- Opaque 32-byte network peer identifier (anemo PeerId), embedded by its bytes. -/
structure PeerId where
  bytes : List Nat
deriving DecidableEq, Repr

/-- Modelled from the spec: NodeInfo is the advertised record gossiped between
peers, `\x7bpeer_id, addresses, timestamp_ms\x7d` (spec section 3); the discovery
module defining it is not under src/, only its tests are. -/
structure NodeInfo where
  peer_id : PeerId
  addresses : List String
  timestamp_ms : Nat
deriving DecidableEq, Repr

/-- Modelled from the spec: the PeerDirectory state, `our_info` plus the
`known_peers` table keyed by peer id (spec section 3); the discovery module
defining it (the discovery State struct) is not under src/, only its tests are. -/
structure PeerDirectory where
  our_info : Option NodeInfo
  known_peers : List (PeerId × NodeInfo)
deriving DecidableEq, Repr

/-- Modelled from the spec: `set_own_info` overwrites `our_info` (spec 4.1). -/
def set_own_info (d : PeerDirectory) (info : NodeInfo) : PeerDirectory :=
  { d with our_info := some info }

/-- Modelled from the spec: `upsert(info)` merges a gossiped record (spec 4.1):
insert when no entry exists for `info.peer_id`; when one exists, replace it
exactly when `info.timestamp_ms` is strictly greater, else drop silently;
return whether the table changed.  The discovery module implementing it is not
under src/, only its tests are. -/
def upsert (d : PeerDirectory) (info : NodeInfo) : PeerDirectory × Bool :=
  match alookup d.known_peers info.peer_id with
  | none =>
      ({ d with known_peers := upsertKey d.known_peers info.peer_id info }, true)
  | some existing =>
      if existing.timestamp_ms < info.timestamp_ms then
        ({ d with known_peers := upsertKey d.known_peers info.peer_id info }, true)
      else
        (d, false)

/-- Modelled from the spec: `upsert_trusted(info)` is the committee path's
merge (spec 4.1, 4.4): it bypasses the timestamp comparison and always
replaces the entry for `info.peer_id` (inserting when absent, since the
committee path also adds newly-joining validators).  The discovery module
implementing it is not under src/, only its tests are. -/
def upsert_trusted (d : PeerDirectory) (info : NodeInfo) : PeerDirectory :=
  { d with known_peers := upsertKey d.known_peers info.peer_id info }

/-- Modelled from the spec: `remove(peer_id)` drops an entry, no error if
absent (spec 4.1). -/
def remove (d : PeerDirectory) (p : PeerId) : PeerDirectory :=
  { d with known_peers := d.known_peers.filter (fun q => !(q.1 = p : Bool)) }

/-- The only error of the DiscoveryServer RPC surface (spec section 7). -/
inductive DiscoveryError where
  | NotReady
deriving DecidableEq, Repr

/-- Modelled from the spec: the `GetKnownPeers` RPC handler (spec 4.2, 6):
fails with NotReady when `our_info` is unset, otherwise returns `our_info`
together with the current known-peer records; a pure read, embedded as a
function of the directory state that returns no new state (no mutation).
The discovery server implementing it is not under src/, only its tests are
(src/crates/sui-network/src/discovery/tests.rs, get_known_peers). -/
def get_known_peers (d : PeerDirectory) : Except DiscoveryError (NodeInfo × List NodeInfo) :=
  match d.our_info with
  | none => Except.error DiscoveryError.NotReady
  | some own => Except.ok (own, d.known_peers.map Prod.snd)

/-- Ed25519 network public key (narwhal_crypto NetworkPublicKey), embedded by
its raw bytes. -/
structure NetworkPublicKey where
  bytes : List Nat
deriving DecidableEq, Repr

/-- BLS protocol public key (narwhal_crypto PublicKey), embedded by its bytes. -/
structure ProtocolPublicKey where
  bytes : List Nat
deriving DecidableEq, Repr

/-- AuthorityName (= AuthorityPublicKeyBytes), the byte form of a protocol
public key. -/
structure AuthorityName where
  bytes : List Nat
deriving DecidableEq, Repr

/-- The Rust `(&protocol_pubkey).into()` conversion: an AuthorityName is the
raw bytes of the protocol public key. -/
def authority_name_of (pk : ProtocolPublicKey) : AuthorityName :=
  ⟨pk.bytes⟩

/-- The Rust `PeerId(network_pubkey.0.to_bytes())` conversion: a peer id is
the raw bytes of an ed25519 network public key. -/
def peer_id_of_network_pubkey (pk : NetworkPublicKey) : PeerId :=
  ⟨pk.bytes⟩

/-- NetworkMetadata from sui-types committee.rs, as constructed by
`to_stake_and_network_metadata`. -/
structure NetworkMetadata where
  network_pubkey : NetworkPublicKey
  network_address : String
  p2p_address : String
deriving DecidableEq, Repr

/-- EpochStartValidatorInfo
(src/crates/sui-types/src/sui_system_state/epoch_start_sui_system_state.rs);
multiaddrs are embedded as strings, the sui address as a Nat. -/
structure EpochStartValidatorInfo where
  sui_address : Nat
  protocol_pubkey : ProtocolPublicKey
  narwhal_network_pubkey : NetworkPublicKey
  narwhal_worker_pubkey : NetworkPublicKey
  sui_net_address : String
  p2p_address : String
  narwhal_primary_address : String
  narwhal_worker_address : String
  voting_power : Nat
deriving DecidableEq, Repr

/-- EpochStartSystemState
(src/crates/sui-types/src/sui_system_state/epoch_start_sui_system_state.rs). -/
structure EpochStartSystemState where
  epoch : Nat
  protocol_version : Nat
  reference_gas_price : Nat
  safe_mode : Bool
  epoch_start_timestamp_ms : Nat
  active_validators : List EpochStartValidatorInfo
deriving DecidableEq, Repr

/-- EpochStartValidatorInfo::to_stake_and_network_metadata. -/
def to_stake_and_network_metadata (v : EpochStartValidatorInfo) :
    AuthorityName × Nat × NetworkMetadata :=
  (authority_name_of v.protocol_pubkey, v.voting_power,
    { network_pubkey := v.narwhal_network_pubkey
      network_address := v.sui_net_address
      p2p_address := v.p2p_address })

/-- EpochStartValidatorInfo::authority_name. -/
def authority_name (v : EpochStartValidatorInfo) : AuthorityName :=
  authority_name_of v.protocol_pubkey

/-- Committee from sui-types committee.rs: an epoch tag and the voting-rights
map. -/
structure Committee where
  epoch : Nat
  voting_rights : List (AuthorityName × Nat)
deriving DecidableEq, Repr

/-- Modelled from the spec: `Committee::new(epoch, voting_rights)` of
sui-types committee.rs is not under src/; the spec describes the committee
record as a mapping authority identity to stake tagged with an epoch number
(spec section 3).  The Rust constructor is fallible (the call site in
get_sui_committee unwraps its result); its failure conditions are not given
by src/ or the spec, so only its successful result is modelled here. -/
def Committee.new (epoch : Nat) (voting_rights : List (AuthorityName × Nat)) : Committee :=
  { epoch := epoch, voting_rights := voting_rights }

/-- CommitteeWithNetworkMetadata from sui-types committee.rs. -/
structure CommitteeWithNetworkMetadata where
  committee : Committee
  network_metadata : List (AuthorityName × NetworkMetadata)
deriving DecidableEq, Repr

/-- EpochStartSystemState::get_sui_committee: one pass over the active
validators inserting each validator's stake and network metadata into the two
maps, then tagging with the state's epoch. -/
def get_sui_committee (s : EpochStartSystemState) : CommitteeWithNetworkMetadata :=
  let maps := s.active_validators.foldl
    (fun acc v =>
      (upsertKey acc.1 (to_stake_and_network_metadata v).1 (to_stake_and_network_metadata v).2.1,
       upsertKey acc.2 (to_stake_and_network_metadata v).1 (to_stake_and_network_metadata v).2.2))
    ([], [])
  { committee := Committee.new s.epoch maps.1
    network_metadata := maps.2 }

/-- EpochStartSystemState::get_authority_names_to_peer_ids: collect
`(authority_name, PeerId(network_pubkey bytes))` per active validator into a
map (later entries for the same key overwrite earlier ones, as when
collecting an iterator into a Rust HashMap). -/
def get_authority_names_to_peer_ids (s : EpochStartSystemState) :
    List (AuthorityName × PeerId) :=
  (s.active_validators.map (fun v =>
      (authority_name v, peer_id_of_network_pubkey v.narwhal_network_pubkey))).foldl
    (fun acc q => upsertKey acc q.1 q.2) []

/-! Concrete sample values used by the witness and counterexample theorems. -/

def d_c1 : PeerDirectory :=
  { our_info := none, known_peers := [] }

def info_c1 : NodeInfo :=
  { peer_id := ⟨[1]⟩, addresses := ["addr1"], timestamp_ms := 5 }

def old_c2 : NodeInfo :=
  { peer_id := ⟨[2]⟩, addresses := [], timestamp_ms := 100 }

def d_c2 : PeerDirectory :=
  { our_info := none, known_peers := [(⟨[2]⟩, old_c2)] }

def info_c2 : NodeInfo :=
  { peer_id := ⟨[2]⟩, addresses := ["addr2"], timestamp_ms := 5 }

def own_c3 : NodeInfo :=
  { peer_id := ⟨List.replicate 32 9⟩, addresses := [], timestamp_ms := 0 }

def peer_c3 : NodeInfo :=
  { peer_id := ⟨List.replicate 32 13⟩, addresses := [], timestamp_ms := 0 }

def d_c3_unset : PeerDirectory :=
  { our_info := none, known_peers := [] }

def d_c3_empty : PeerDirectory :=
  { our_info := some own_c3, known_peers := [] }

def d_c3 : PeerDirectory :=
  { our_info := some own_c3, known_peers := [(peer_c3.peer_id, peer_c3)] }

def p_c4 : PeerId := ⟨[4]⟩

def i1_c4 : NodeInfo :=
  { peer_id := ⟨[4]⟩, addresses := ["early"], timestamp_ms := 1 }

def i2_c4 : NodeInfo :=
  { peer_id := ⟨[4]⟩, addresses := ["late"], timestamp_ms := 2 }

def d_c4 : PeerDirectory :=
  { our_info := none, known_peers := [] }

def v1_c5 : EpochStartValidatorInfo :=
  { sui_address := 0
    protocol_pubkey := ⟨[7]⟩
    narwhal_network_pubkey := ⟨[1]⟩
    narwhal_worker_pubkey := ⟨[0]⟩
    sui_net_address := "net1"
    p2p_address := "p2p1"
    narwhal_primary_address := ""
    narwhal_worker_address := ""
    voting_power := 1 }

def v2_c5 : EpochStartValidatorInfo :=
  { sui_address := 1
    protocol_pubkey := ⟨[7]⟩
    narwhal_network_pubkey := ⟨[2]⟩
    narwhal_worker_pubkey := ⟨[0]⟩
    sui_net_address := "net2"
    p2p_address := "p2p2"
    narwhal_primary_address := ""
    narwhal_worker_address := ""
    voting_power := 1 }

def v3_c5 : EpochStartValidatorInfo :=
  { sui_address := 2
    protocol_pubkey := ⟨[8]⟩
    narwhal_network_pubkey := ⟨[3]⟩
    narwhal_worker_pubkey := ⟨[0]⟩
    sui_net_address := "net3"
    p2p_address := "p2p3"
    narwhal_primary_address := ""
    narwhal_worker_address := ""
    voting_power := 1 }

def s_c5 : EpochStartSystemState :=
  { epoch := 0
    protocol_version := 1
    reference_gas_price := 1
    safe_mode := false
    epoch_start_timestamp_ms := 0
    active_validators := [v1_c5, v2_c5] }

def s_c5w : EpochStartSystemState :=
  { epoch := 0
    protocol_version := 1
    reference_gas_price := 1
    safe_mode := false
    epoch_start_timestamp_ms := 0
    active_validators := [v1_c5, v3_c5] }

def v1_c6 : EpochStartValidatorInfo :=
  { sui_address := 0
    protocol_pubkey := ⟨[21]⟩
    narwhal_network_pubkey := ⟨[31]⟩
    narwhal_worker_pubkey := ⟨[0]⟩
    sui_net_address := "net21"
    p2p_address := "p2p21"
    narwhal_primary_address := ""
    narwhal_worker_address := ""
    voting_power := 1 }

def v2_c6 : EpochStartValidatorInfo :=
  { sui_address := 1
    protocol_pubkey := ⟨[21]⟩
    narwhal_network_pubkey := ⟨[32]⟩
    narwhal_worker_pubkey := ⟨[0]⟩
    sui_net_address := "net22"
    p2p_address := "p2p22"
    narwhal_primary_address := ""
    narwhal_worker_address := ""
    voting_power := 2 }

def v3_c6 : EpochStartValidatorInfo :=
  { sui_address := 2
    protocol_pubkey := ⟨[22]⟩
    narwhal_network_pubkey := ⟨[33]⟩
    narwhal_worker_pubkey := ⟨[0]⟩
    sui_net_address := "net23"
    p2p_address := "p2p23"
    narwhal_primary_address := ""
    narwhal_worker_address := ""
    voting_power := 3 }

def s_c6 : EpochStartSystemState :=
  { epoch := 5
    protocol_version := 1
    reference_gas_price := 1
    safe_mode := false
    epoch_start_timestamp_ms := 0
    active_validators := [v1_c6, v2_c6] }

def s_c6w : EpochStartSystemState :=
  { epoch := 5
    protocol_version := 1
    reference_gas_price := 1
    safe_mode := false
    epoch_start_timestamp_ms := 0
    active_validators := [v1_c6, v3_c6] }

def v1_c10 : EpochStartValidatorInfo :=
  { sui_address := 0
    protocol_pubkey := ⟨[41]⟩
    narwhal_network_pubkey := ⟨[51]⟩
    narwhal_worker_pubkey := ⟨[0]⟩
    sui_net_address := "net41"
    p2p_address := "p2p41"
    narwhal_primary_address := ""
    narwhal_worker_address := ""
    voting_power := 1 }

def v2_c10 : EpochStartValidatorInfo :=
  { sui_address := 1
    protocol_pubkey := ⟨[42]⟩
    narwhal_network_pubkey := ⟨[52]⟩
    narwhal_worker_pubkey := ⟨[0]⟩
    sui_net_address := "net42"
    p2p_address := "p2p42"
    narwhal_primary_address := ""
    narwhal_worker_address := ""
    voting_power := 2 }

def s_c10 : EpochStartSystemState :=
  { epoch := 3
    protocol_version := 1
    reference_gas_price := 1
    safe_mode := false
    epoch_start_timestamp_ms := 0
    active_validators := [v1_c10, v2_c10] }

section AListLemmas

variable {α : Type u} {β : Type v} [DecidableEq α]

theorem alookup_upsertKey_self (l : List (α × β)) (k : α) (v : β) :
    alookup (upsertKey l k v) k = some v := by
  induction l with
  | nil => simp [upsertKey, alookup]
  | cons q t ih =>
    obtain ⟨a, b⟩ := q
    by_cases h : a = k
    · simp [upsertKey, h, alookup]
    · simp [upsertKey, h, alookup, ih]

theorem alookup_upsertKey_ne (l : List (α × β)) (k a : α) (v : β) (h : a ≠ k) :
    alookup (upsertKey l a v) k = alookup l k := by
  induction l with
  | nil => simp [upsertKey, alookup, h]
  | cons q t ih =>
    obtain ⟨c, b⟩ := q
    by_cases hc : c = a
    · subst hc
      simp [upsertKey, alookup, h]
    · simp [upsertKey, hc, alookup, ih]

theorem upsertKey_upsertKey (l : List (α × β)) (k : α) (v w : β) :
    upsertKey (upsertKey l k v) k w = upsertKey l k w := by
  induction l with
  | nil => simp [upsertKey]
  | cons q t ih =>
    obtain ⟨a, b⟩ := q
    by_cases h : a = k
    · simp [upsertKey, h]
    · simp [upsertKey, h, ih]

theorem upsertKey_of_alookup_none (l : List (α × β)) (k : α) (v : β)
    (h : alookup l k = none) : upsertKey l k v = l ++ [(k, v)] := by
  induction l with
  | nil => simp [upsertKey]
  | cons q t ih =>
    obtain ⟨a, b⟩ := q
    by_cases ha : a = k
    · simp [alookup, ha] at h
    · simp [alookup, ha] at h
      simp [upsertKey, ha, ih h]

theorem mem_keys_of_alookup_eq_some (l : List (α × β)) (k : α) (b : β)
    (h : alookup l k = some b) : k ∈ l.map Prod.fst := by
  induction l with
  | nil => simp [alookup] at h
  | cons q t ih =>
    obtain ⟨a, c⟩ := q
    by_cases ha : a = k
    · simp [ha]
    · simp [alookup, ha] at h
      simpa using Or.inr (ih h)

theorem alookup_congr {l₁ l₂ : List (α × β)} (h : l₁ = l₂) (k : α) :
    alookup l₁ k = alookup l₂ k := by
  rw [h]

theorem alookup_foldl_upsertKey_not_mem {γ : Type w} (key : γ → α) (val : γ → β)
    (l : List γ) (init : List (α × β)) (k : α) (h : ∀ y ∈ l, key y ≠ k) :
    alookup (l.foldl (fun acc y => upsertKey acc (key y) (val y)) init) k =
      alookup init k := by
  induction l generalizing init with
  | nil => simp
  | cons y t ih =>
    simp only [List.foldl_cons]
    rw [ih _ (fun r hr => h r (List.mem_cons_of_mem y hr)),
      alookup_upsertKey_ne _ _ _ _ (h y (List.mem_cons_self y t))]

theorem alookup_foldl_upsertKey_nodup {γ : Type w} (key : γ → α) (val : γ → β)
    (l : List γ) (init : List (α × β)) (hnd : (l.map key).Nodup)
    (x : γ) (hx : x ∈ l) :
    alookup (l.foldl (fun acc y => upsertKey acc (key y) (val y)) init) (key x) =
      some (val x) := by
  induction l generalizing init with
  | nil => simp at hx
  | cons y t ih =>
    simp only [List.map_cons, List.nodup_cons] at hnd
    rcases List.mem_cons.mp hx with hy | htm
    · subst hy
      simp only [List.foldl_cons]
      rw [alookup_foldl_upsertKey_not_mem]
      · exact alookup_upsertKey_self _ _ _
      · intro r hr hrk
        exact hnd.1 (hrk ▸ List.mem_map_of_mem key hr)
    · simp only [List.foldl_cons]
      exact ih _ hnd.2 htm

theorem keys_upsertKey_of_not_mem (l : List (α × β)) (k : α) (v : β)
    (h : k ∉ l.map Prod.fst) :
    (upsertKey l k v).map Prod.fst = l.map Prod.fst ++ [k] := by
  induction l with
  | nil => simp [upsertKey]
  | cons q t ih =>
    obtain ⟨a, b⟩ := q
    simp only [List.map_cons, List.mem_cons] at h
    push_neg at h
    simp [upsertKey, Ne.symm h.1, ih h.2]

theorem keys_foldl_upsertKey_nodup {γ : Type w} (key : γ → α) (val : γ → β)
    (l : List γ) (init : List (α × β)) (hnd : (l.map key).Nodup)
    (hdisj : ∀ y ∈ l, key y ∉ init.map Prod.fst) :
    (l.foldl (fun acc y => upsertKey acc (key y) (val y)) init).map Prod.fst =
      init.map Prod.fst ++ l.map key := by
  induction l generalizing init with
  | nil => simp
  | cons y t ih =>
    simp only [List.map_cons, List.nodup_cons] at hnd
    simp only [List.foldl_cons, List.map_cons]
    rw [ih _ hnd.2, keys_upsertKey_of_not_mem _ _ _
        (hdisj y (by simp)), List.append_assoc]
    · rfl
    · intro r hr
      rw [keys_upsertKey_of_not_mem _ _ _ (hdisj y (by simp))]
      simp only [List.mem_append, List.mem_singleton]
      rintro (hmem | hrk)
      · exact hdisj r (by simp [hr]) hmem
      · exact hnd.1 (hrk ▸ List.mem_map_of_mem key hr)

end AListLemmas

section PeerDirectoryLemmas

theorem peer_directory_eq (x y : PeerDirectory) (h1 : x.our_info = y.our_info)
    (h2 : x.known_peers = y.known_peers) : x = y := by
  cases x
  cases y
  simp_all

theorem upsert_of_alookup_none (d : PeerDirectory) (info : NodeInfo)
    (h : alookup d.known_peers info.peer_id = none) :
    upsert d info =
      ({ d with known_peers := upsertKey d.known_peers info.peer_id info }, true) := by
  simp [upsert, h]

theorem upsert_of_alookup_some_lt (d : PeerDirectory) (info e : NodeInfo)
    (h : alookup d.known_peers info.peer_id = some e)
    (hlt : e.timestamp_ms < info.timestamp_ms) :
    upsert d info =
      ({ d with known_peers := upsertKey d.known_peers info.peer_id info }, true) := by
  simp [upsert, h, hlt]

theorem upsert_of_alookup_some_not_lt (d : PeerDirectory) (info e : NodeInfo)
    (h : alookup d.known_peers info.peer_id = some e)
    (hnlt : ¬ e.timestamp_ms < info.timestamp_ms) :
    upsert d info = (d, false) := by
  simp [upsert, h, hnlt]

theorem upsert_preserves_our_info (d : PeerDirectory) (info : NodeInfo) :
    (upsert d info).1.our_info = d.our_info := by
  cases h : alookup d.known_peers info.peer_id with
  | none => simp [upsert, h]
  | some e =>
    by_cases hlt : e.timestamp_ms < info.timestamp_ms <;> simp [upsert, h, hlt]

end PeerDirectoryLemmas

/-- C1: for every PeerDirectory state and every NodeInfo argument, `upsert(info)`
inserts the entry when no entry exists for `info.peer_id`; when an entry exists,
it replaces it exactly when `info.timestamp_ms` is strictly greater than the
existing entry's `timestamp_ms` and otherwise leaves the table unchanged without
error; and its boolean return value is true exactly when the table changed. -/
theorem upsert_merge_rule (d : PeerDirectory) (info : NodeInfo) :
    (alookup d.known_peers info.peer_id = none →
      alookup (upsert d info).1.known_peers info.peer_id = some info ∧
      (upsert d info).1.our_info = d.our_info ∧
      (∀ q, q ≠ info.peer_id →
        alookup (upsert d info).1.known_peers q = alookup d.known_peers q) ∧
      (upsert d info).2 = true) ∧
    (∀ e, alookup d.known_peers info.peer_id = some e →
      (e.timestamp_ms < info.timestamp_ms →
        alookup (upsert d info).1.known_peers info.peer_id = some info ∧
        (upsert d info).1.our_info = d.our_info ∧
        (∀ q, q ≠ info.peer_id →
          alookup (upsert d info).1.known_peers q = alookup d.known_peers q) ∧
        (upsert d info).2 = true) ∧
      (¬ e.timestamp_ms < info.timestamp_ms →
        (upsert d info).1 = d ∧ (upsert d info).2 = false)) ∧
    ((upsert d info).2 = true ↔ (upsert d info).1 ≠ d) := by
  cases h : alookup d.known_peers info.peer_id with
  | none =>
    rw [upsert_of_alookup_none d info h]
    refine ⟨fun _ => ⟨alookup_upsertKey_self _ _ _, rfl,
        fun q hq => alookup_upsertKey_ne _ _ _ _ (Ne.symm hq), rfl⟩,
      fun e he => Option.noConfusion he,
      ⟨fun _ heq => ?_, fun _ => rfl⟩⟩
    have h2 : alookup (upsertKey d.known_peers info.peer_id info) info.peer_id =
        alookup d.known_peers info.peer_id :=
      alookup_congr (congrArg PeerDirectory.known_peers heq) info.peer_id
    rw [alookup_upsertKey_self, h] at h2
    exact Option.noConfusion h2
  | some e =>
    by_cases hlt : e.timestamp_ms < info.timestamp_ms
    · rw [upsert_of_alookup_some_lt d info e h hlt]
      refine ⟨fun hn => Option.noConfusion hn,
        fun e2 he2 => ?_, ⟨fun _ heq => ?_, fun _ => rfl⟩⟩
      · have hee : e = e2 := Option.some.inj he2
        subst hee
        exact ⟨fun _ => ⟨alookup_upsertKey_self _ _ _, rfl,
            fun q hq => alookup_upsertKey_ne _ _ _ _ (Ne.symm hq), rfl⟩,
          fun hnlt => absurd hlt hnlt⟩
      · have h2 : alookup (upsertKey d.known_peers info.peer_id info) info.peer_id =
            alookup d.known_peers info.peer_id :=
          alookup_congr (congrArg PeerDirectory.known_peers heq) info.peer_id
        rw [alookup_upsertKey_self, h] at h2
        have h3 : info = e := Option.some.inj h2
        rw [← h3] at hlt
        exact absurd hlt (lt_irrefl _)
    · rw [upsert_of_alookup_some_not_lt d info e h hlt]
      refine ⟨fun hn => Option.noConfusion hn,
        fun e2 he2 => ?_, by simp⟩
      have hee : e = e2 := Option.some.inj he2
      subst hee
      exact ⟨fun hlt2 => absurd hlt2 hlt, fun _ => ⟨rfl, rfl⟩⟩

/-- Witness for C1 at a concrete input: merging a record for an unknown peer
into an empty directory stores it and reports a change. -/
theorem upsert_merge_rule_witness :
    alookup (upsert d_c1 info_c1).1.known_peers info_c1.peer_id = some info_c1 ∧
    (upsert d_c1 info_c1).2 = true := by
  have h := (upsert_merge_rule d_c1 info_c1).1 (by rfl)
  exact ⟨h.1, h.2.2.2⟩

/-- C2: for every PeerDirectory state and every pair of NodeInfo records for a
peer id, `upsert_trusted(info)` always replaces the existing entry for
`info.peer_id`, even when the existing entry's `timestamp_ms` is numerically
larger than `info.timestamp_ms` (no timestamp condition is required at all). -/
theorem upsert_trusted_always_replaces (d : PeerDirectory) (info existing : NodeInfo)
    (_h : alookup d.known_peers info.peer_id = some existing) :
    alookup (upsert_trusted d info).known_peers info.peer_id = some info := by
  show alookup (upsertKey d.known_peers info.peer_id info) info.peer_id = some info
  exact alookup_upsertKey_self _ _ _

/-- Witness for C2 at a concrete input: the existing entry has timestamp 100,
the trusted update timestamp 5, and the trusted update still replaces it. -/
theorem upsert_trusted_always_replaces_witness :
    alookup d_c2.known_peers info_c2.peer_id = some old_c2 ∧
    info_c2.timestamp_ms < old_c2.timestamp_ms ∧
    alookup (upsert_trusted d_c2 info_c2).known_peers info_c2.peer_id = some info_c2 :=
  ⟨by rfl, by decide, upsert_trusted_always_replaces d_c2 info_c2 old_c2 (by rfl)⟩

/-- C3: GetKnownPeers fails with NotReady exactly when `our_info` is unset (and
the embedding is a pure read of the directory, so the failure and the success
path alike mutate nothing); once `our_info` is set it succeeds, returning that
own info together with the current known peers, the empty sequence when no
peers are registered. -/
theorem get_known_peers_spec (d : PeerDirectory) :
    (get_known_peers d = Except.error DiscoveryError.NotReady ↔ d.our_info = none) ∧
    (∀ own, d.our_info = some own →
      get_known_peers d = Except.ok (own, d.known_peers.map Prod.snd)) := by
  cases h : d.our_info with
  | none =>
    exact ⟨by simp [get_known_peers, h], fun own hown => Option.noConfusion hown⟩
  | some own0 =>
    refine ⟨by simp [get_known_peers, h], fun own hown => ?_⟩
    have : own0 = own := Option.some.inj hown
    subst this
    simp [get_known_peers, h]

/-- Witness for C3 at concrete inputs: before `set_own_info` the call fails
with NotReady; with `our_info` set and no peers it returns the own info and
the empty list; with one registered peer it returns that peer. -/
theorem get_known_peers_spec_witness :
    get_known_peers d_c3_unset = Except.error DiscoveryError.NotReady ∧
    get_known_peers d_c3_empty = Except.ok (own_c3, []) ∧
    get_known_peers d_c3 = Except.ok (own_c3, [peer_c3]) := by
  refine ⟨(get_known_peers_spec d_c3_unset).1.mpr rfl, ?_, ?_⟩
  · have h := (get_known_peers_spec d_c3_empty).2 own_c3 rfl
    simpa using h
  · have h := (get_known_peers_spec d_c3).2 own_c3 rfl
    simpa using h

/-- C4: for updates `i1`, `i2` to the same peer with timestamps `t1 < t2`,
applied to a directory whose entry for that peer (when one exists) is older
than `t2`: applying `i2` then `i1` leaves the stored record at `i2`; the
resulting state is the same in either application order; and re-applying
either update leaves the state unchanged (the merge is commutative and
idempotent with respect to timestamp ordering). -/
theorem upsert_commutative_idempotent (d : PeerDirectory) (p : PeerId)
    (i1 i2 : NodeInfo) (hp1 : i1.peer_id = p) (hp2 : i2.peer_id = p)
    (ht : i1.timestamp_ms < i2.timestamp_ms)
    (hd : ∀ e, alookup d.known_peers p = some e →
      e.timestamp_ms < i2.timestamp_ms) :
    alookup (upsert (upsert d i2).1 i1).1.known_peers p = some i2 ∧
    (upsert (upsert d i1).1 i2).1 = (upsert (upsert d i2).1 i1).1 ∧
    (upsert (upsert (upsert d i2).1 i1).1 i1).1 = (upsert (upsert d i2).1 i1).1 ∧
    (upsert (upsert (upsert d i2).1 i1).1 i2).1 = (upsert (upsert d i2).1 i1).1 := by
  have k2 : (upsert d i2).1.known_peers = upsertKey d.known_peers p i2 := by
    cases h : alookup d.known_peers p with
    | none =>
      rw [upsert_of_alookup_none d i2 (by rw [hp2]; exact h)]
      show upsertKey d.known_peers i2.peer_id i2 = upsertKey d.known_peers p i2
      rw [hp2]
    | some e =>
      rw [upsert_of_alookup_some_lt d i2 e (by rw [hp2]; exact h) (hd e h)]
      show upsertKey d.known_peers i2.peer_id i2 = upsertKey d.known_peers p i2
      rw [hp2]
  have lk2 : alookup (upsert d i2).1.known_peers i1.peer_id = some i2 := by
    rw [k2, hp1]
    exact alookup_upsertKey_self _ _ _
  have hno : ¬ i2.timestamp_ms < i1.timestamp_ms := Nat.not_lt.mpr (Nat.le_of_lt ht)
  have hstep : upsert (upsert d i2).1 i1 = ((upsert d i2).1, false) :=
    upsert_of_alookup_some_not_lt _ i1 i2 lk2 hno
  have hcollapse : (upsert (upsert d i2).1 i1).1 = (upsert d i2).1 := by
    rw [hstep]
  refine ⟨?_, ?_, ?_, ?_⟩
  · rw [hcollapse, k2]
    exact alookup_upsertKey_self _ _ _
  · rw [hcollapse]
    have hoi : (upsert (upsert d i1).1 i2).1.our_info = (upsert d i2).1.our_info := by
      rw [upsert_preserves_our_info, upsert_preserves_our_info,
        upsert_preserves_our_info]
    have hkp : (upsert (upsert d i1).1 i2).1.known_peers =
        upsertKey d.known_peers p i2 := by
      cases h : alookup d.known_peers p with
      | none =>
        rw [upsert_of_alookup_none d i1 (by rw [hp1]; exact h)]
        have lkk : alookup
            ({ d with known_peers := upsertKey d.known_peers i1.peer_id i1 }
              : PeerDirectory).known_peers i2.peer_id = some i1 := by
          show alookup (upsertKey d.known_peers i1.peer_id i1) i2.peer_id = some i1
          rw [hp1, hp2]
          exact alookup_upsertKey_self _ _ _
        rw [upsert_of_alookup_some_lt _ i2 i1 lkk ht]
        show upsertKey (upsertKey d.known_peers i1.peer_id i1) i2.peer_id i2 =
          upsertKey d.known_peers p i2
        rw [hp1, hp2, upsertKey_upsertKey]
      | some e =>
        by_cases hlt1 : e.timestamp_ms < i1.timestamp_ms
        · rw [upsert_of_alookup_some_lt d i1 e (by rw [hp1]; exact h) hlt1]
          have lkk : alookup
              ({ d with known_peers := upsertKey d.known_peers i1.peer_id i1 }
                : PeerDirectory).known_peers i2.peer_id = some i1 := by
            show alookup (upsertKey d.known_peers i1.peer_id i1) i2.peer_id = some i1
            rw [hp1, hp2]
            exact alookup_upsertKey_self _ _ _
          rw [upsert_of_alookup_some_lt _ i2 i1 lkk ht]
          show upsertKey (upsertKey d.known_peers i1.peer_id i1) i2.peer_id i2 =
            upsertKey d.known_peers p i2
          rw [hp1, hp2, upsertKey_upsertKey]
        · rw [upsert_of_alookup_some_not_lt d i1 e (by rw [hp1]; exact h) hlt1]
          exact k2
    exact peer_directory_eq _ _ hoi (hkp.trans k2.symm)
  · rw [hcollapse]
    exact hcollapse
  · rw [hcollapse]
    have lk2b : alookup (upsert d i2).1.known_peers i2.peer_id = some i2 := by
      rw [k2, hp2]
      exact alookup_upsertKey_self _ _ _
    rw [upsert_of_alookup_some_not_lt _ i2 i2 lk2b (lt_irrefl _)]

section EpochStateLemmas

theorem authority_name_of_injective : Function.Injective authority_name_of := by
  intro a b hab
  cases a
  cases b
  simpa [authority_name_of] using hab

theorem names_nodup_of_pubkeys_nodup (l : List EpochStartValidatorInfo)
    (hnd : (l.map (fun v => v.protocol_pubkey)).Nodup) :
    (l.map authority_name).Nodup := by
  have h2 : (l.map (fun v => v.protocol_pubkey)).map authority_name_of =
      l.map authority_name := by
    rw [List.map_map]
    rfl
  rw [← h2]
  exact hnd.map authority_name_of_injective

theorem foldl_pair_spec (l : List EpochStartValidatorInfo)
    (a : List (AuthorityName × Nat)) (b : List (AuthorityName × NetworkMetadata)) :
    l.foldl
      (fun acc v =>
        (upsertKey acc.1 (to_stake_and_network_metadata v).1
          (to_stake_and_network_metadata v).2.1,
         upsertKey acc.2 (to_stake_and_network_metadata v).1
          (to_stake_and_network_metadata v).2.2))
      (a, b) =
    (l.foldl (fun acc v => upsertKey acc (authority_name v) v.voting_power) a,
     l.foldl (fun acc v => upsertKey acc (authority_name v)
        { network_pubkey := v.narwhal_network_pubkey
          network_address := v.sui_net_address
          p2p_address := v.p2p_address }) b) := by
  induction l generalizing a b with
  | nil => rfl
  | cons v t ih =>
    simp only [List.foldl_cons]
    exact ih _ _

theorem get_sui_committee_epoch (s : EpochStartSystemState) :
    (get_sui_committee s).committee.epoch = s.epoch := rfl

theorem get_sui_committee_voting_rights (s : EpochStartSystemState) :
    (get_sui_committee s).committee.voting_rights =
      s.active_validators.foldl
        (fun acc v => upsertKey acc (authority_name v) v.voting_power) [] := by
  show (s.active_validators.foldl
      (fun acc v =>
        (upsertKey acc.1 (to_stake_and_network_metadata v).1
          (to_stake_and_network_metadata v).2.1,
         upsertKey acc.2 (to_stake_and_network_metadata v).1
          (to_stake_and_network_metadata v).2.2))
      ([], [])).1 = _
  rw [foldl_pair_spec]

theorem get_sui_committee_network_metadata (s : EpochStartSystemState) :
    (get_sui_committee s).network_metadata =
      s.active_validators.foldl
        (fun acc v => upsertKey acc (authority_name v)
          { network_pubkey := v.narwhal_network_pubkey
            network_address := v.sui_net_address
            p2p_address := v.p2p_address }) [] := by
  show (s.active_validators.foldl
      (fun acc v =>
        (upsertKey acc.1 (to_stake_and_network_metadata v).1
          (to_stake_and_network_metadata v).2.1,
         upsertKey acc.2 (to_stake_and_network_metadata v).1
          (to_stake_and_network_metadata v).2.2))
      ([], [])).2 = _
  rw [foldl_pair_spec]

theorem alookup_voting_rights (s : EpochStartSystemState)
    (hnd : (s.active_validators.map (fun v => v.protocol_pubkey)).Nodup)
    (v : EpochStartValidatorInfo) (hv : v ∈ s.active_validators) :
    alookup (get_sui_committee s).committee.voting_rights (authority_name v) =
      some v.voting_power := by
  rw [get_sui_committee_voting_rights]
  exact alookup_foldl_upsertKey_nodup authority_name (fun v => v.voting_power)
    _ [] (names_nodup_of_pubkeys_nodup _ hnd) v hv

theorem alookup_network_metadata (s : EpochStartSystemState)
    (hnd : (s.active_validators.map (fun v => v.protocol_pubkey)).Nodup)
    (v : EpochStartValidatorInfo) (hv : v ∈ s.active_validators) :
    alookup (get_sui_committee s).network_metadata (authority_name v) =
      some { network_pubkey := v.narwhal_network_pubkey
             network_address := v.sui_net_address
             p2p_address := v.p2p_address } := by
  rw [get_sui_committee_network_metadata]
  exact alookup_foldl_upsertKey_nodup authority_name _
    _ [] (names_nodup_of_pubkeys_nodup _ hnd) v hv

theorem alookup_names_to_peer_ids (s : EpochStartSystemState)
    (hnd : (s.active_validators.map (fun v => v.protocol_pubkey)).Nodup)
    (v : EpochStartValidatorInfo) (hv : v ∈ s.active_validators) :
    alookup (get_authority_names_to_peer_ids s) (authority_name v) =
      some (peer_id_of_network_pubkey v.narwhal_network_pubkey) := by
  show alookup ((s.active_validators.map (fun v =>
      (authority_name v, peer_id_of_network_pubkey v.narwhal_network_pubkey))).foldl
      (fun acc q => upsertKey acc q.1 q.2) []) (authority_name v) = _
  have hkeys : ((s.active_validators.map (fun v =>
      (authority_name v, peer_id_of_network_pubkey v.narwhal_network_pubkey))).map
        (fun q : AuthorityName × PeerId => q.1)).Nodup := by
    rw [List.map_map]
    exact names_nodup_of_pubkeys_nodup _ hnd
  exact alookup_foldl_upsertKey_nodup (fun q : AuthorityName × PeerId => q.1)
    (fun q : AuthorityName × PeerId => q.2)
    _ [] hkeys _ (List.mem_map_of_mem _ hv)

theorem keys_network_metadata (s : EpochStartSystemState)
    (hnd : (s.active_validators.map (fun v => v.protocol_pubkey)).Nodup) :
    (get_sui_committee s).network_metadata.map Prod.fst =
      s.active_validators.map authority_name := by
  rw [get_sui_committee_network_metadata]
  have h1 := keys_foldl_upsertKey_nodup authority_name
    (fun v : EpochStartValidatorInfo =>
      ({ network_pubkey := v.narwhal_network_pubkey
         network_address := v.sui_net_address
         p2p_address := v.p2p_address } : NetworkMetadata))
    s.active_validators [] (names_nodup_of_pubkeys_nodup _ hnd) (by simp)
  exact h1.trans (List.nil_append _)

theorem keys_names_to_peer_ids (s : EpochStartSystemState)
    (hnd : (s.active_validators.map (fun v => v.protocol_pubkey)).Nodup) :
    (get_authority_names_to_peer_ids s).map Prod.fst =
      s.active_validators.map authority_name := by
  show ((s.active_validators.map (fun v =>
      (authority_name v, peer_id_of_network_pubkey v.narwhal_network_pubkey))).foldl
      (fun acc q => upsertKey acc q.1 q.2) []).map Prod.fst = _
  have hkeys : ((s.active_validators.map (fun v =>
      (authority_name v, peer_id_of_network_pubkey v.narwhal_network_pubkey))).map
        (fun q : AuthorityName × PeerId => q.1)).Nodup := by
    rw [List.map_map]
    exact names_nodup_of_pubkeys_nodup _ hnd
  have h1 := keys_foldl_upsertKey_nodup (fun q : AuthorityName × PeerId => q.1)
    (fun q : AuthorityName × PeerId => q.2)
    (s.active_validators.map (fun v =>
      (authority_name v, peer_id_of_network_pubkey v.narwhal_network_pubkey)))
    [] hkeys (by simp)
  refine h1.trans ?_
  simp only [List.map_nil, List.nil_append, List.map_map]
  rfl

end EpochStateLemmas

/-- Witness for C4 at concrete inputs: two updates for the same peer with
timestamps 1 and 2, applied in either order to an empty directory. -/
theorem upsert_commutative_idempotent_witness :
    alookup (upsert (upsert d_c4 i2_c4).1 i1_c4).1.known_peers p_c4 = some i2_c4 ∧
    (upsert (upsert d_c4 i1_c4).1 i2_c4).1 = (upsert (upsert d_c4 i2_c4).1 i1_c4).1 := by
  have h := upsert_commutative_idempotent d_c4 p_c4 i1_c4 i2_c4 rfl rfl (by decide)
    (fun e he => by simp [d_c4, alookup] at he)
  exact ⟨h.1, h.2.1⟩

/-- Counterexample to C5 as stated: in a state with two active validators
sharing a protocol_pubkey but carrying different network public keys, the
collected map holds only the later validator's peer id under the shared
authority name, so the first validator has no entry whose value is the peer
id formed from its own network public key. -/
theorem authority_names_to_peer_ids_counterexample :
    v1_c5 ∈ s_c5.active_validators ∧
    alookup (get_authority_names_to_peer_ids s_c5) (authority_name v1_c5) ≠
      some (peer_id_of_network_pubkey v1_c5.narwhal_network_pubkey) := by
  decide

/-- C5 (amended with pairwise-distinct protocol_pubkey values): for every
EpochStartSystemState whose active validators have pairwise-distinct
protocol_pubkey values, get_authority_names_to_peer_ids returns a map
containing, for each active validator, an entry keyed by the authority name
derived from its protocol_pubkey whose value is the peer identifier whose
bytes are exactly the raw bytes of that validator's network public key
(narwhal_network_pubkey). -/
theorem authority_names_to_peer_ids_of_distinct (s : EpochStartSystemState)
    (hnd : (s.active_validators.map (fun v => v.protocol_pubkey)).Nodup)
    (v : EpochStartValidatorInfo) (hv : v ∈ s.active_validators) :
    alookup (get_authority_names_to_peer_ids s) (authority_name v) =
      some (peer_id_of_network_pubkey v.narwhal_network_pubkey) :=
  alookup_names_to_peer_ids s hnd v hv

/-- Witness for the amended C5 at a concrete input: two validators with
distinct protocol public keys. -/
theorem authority_names_to_peer_ids_of_distinct_witness :
    alookup (get_authority_names_to_peer_ids s_c5w) (authority_name v1_c5) =
      some (peer_id_of_network_pubkey v1_c5.narwhal_network_pubkey) :=
  authority_names_to_peer_ids_of_distinct s_c5w (by decide) v1_c5 (by decide)

/-- Counterexample to C6 as stated: in a state with two active validators
sharing a protocol_pubkey but with different voting powers, the committee's
voting-rights map does not map the first validator's authority name to that
validator's voting_power (the second validator's insert overwrote it). -/
theorem sui_committee_counterexample :
    v1_c6 ∈ s_c6.active_validators ∧
    alookup (get_sui_committee s_c6).committee.voting_rights (authority_name v1_c6) ≠
      some v1_c6.voting_power := by
  decide

/-- C6 (amended with pairwise-distinct protocol_pubkey values): for every
EpochStartSystemState whose active validators have pairwise-distinct
protocol_pubkey values, get_sui_committee returns a committee record tagged
with the state's epoch that maps, for each active validator, the authority
identity derived from its protocol_pubkey to its voting_power in the
committee's voting rights and to a NetworkMetadata record containing exactly
that validator's narwhal_network_pubkey as network_pubkey, its
sui_net_address as network_address, and its p2p_address. -/
theorem sui_committee_of_distinct (s : EpochStartSystemState)
    (hnd : (s.active_validators.map (fun v => v.protocol_pubkey)).Nodup) :
    (get_sui_committee s).committee.epoch = s.epoch ∧
    ∀ v ∈ s.active_validators,
      alookup (get_sui_committee s).committee.voting_rights (authority_name v) =
        some v.voting_power ∧
      alookup (get_sui_committee s).network_metadata (authority_name v) =
        some { network_pubkey := v.narwhal_network_pubkey
               network_address := v.sui_net_address
               p2p_address := v.p2p_address } :=
  ⟨get_sui_committee_epoch s,
    fun v hv => ⟨alookup_voting_rights s hnd v hv, alookup_network_metadata s hnd v hv⟩⟩

/-- Witness for the amended C6 at a concrete input: two validators with
distinct protocol public keys; the committee is tagged with epoch 5 and maps
the first validator's name to its stake and metadata. -/
theorem sui_committee_of_distinct_witness :
    (get_sui_committee s_c6w).committee.epoch = 5 ∧
    alookup (get_sui_committee s_c6w).committee.voting_rights (authority_name v1_c6) =
      some v1_c6.voting_power ∧
    alookup (get_sui_committee s_c6w).network_metadata (authority_name v1_c6) =
      some { network_pubkey := v1_c6.narwhal_network_pubkey
             network_address := v1_c6.sui_net_address
             p2p_address := v1_c6.p2p_address } := by
  have h := sui_committee_of_distinct s_c6w (by decide)
  have hv := h.2 v1_c6 (by decide)
  exact ⟨h.1, hv.1, hv.2⟩

/-- C10: for every EpochStartSystemState whose active validators have
pairwise-distinct protocol_pubkey values, the key set of get_sui_committee's
network_metadata equals the key set of get_authority_names_to_peer_ids (one
authority name per active validator, both derived from protocol_pubkey), and
for each authority name the peer identifier returned by
get_authority_names_to_peer_ids equals the peer identifier formed from the
raw bytes of the network_pubkey stored in that authority's NetworkMetadata. -/
theorem committee_views_consistent (s : EpochStartSystemState)
    (hnd : (s.active_validators.map (fun v => v.protocol_pubkey)).Nodup) :
    ((get_sui_committee s).network_metadata.map Prod.fst =
      (get_authority_names_to_peer_ids s).map Prod.fst) ∧
    (∀ name md, alookup (get_sui_committee s).network_metadata name = some md →
      alookup (get_authority_names_to_peer_ids s) name =
        some (peer_id_of_network_pubkey md.network_pubkey)) := by
  refine ⟨(keys_network_metadata s hnd).trans (keys_names_to_peer_ids s hnd).symm,
    fun name md hmd => ?_⟩
  have hmem : name ∈ (get_sui_committee s).network_metadata.map Prod.fst :=
    mem_keys_of_alookup_eq_some _ _ _ hmd
  rw [keys_network_metadata s hnd] at hmem
  obtain ⟨v, hv, hname⟩ := List.mem_map.mp hmem
  subst hname
  have hmd2 := alookup_network_metadata s hnd v hv
  rw [hmd] at hmd2
  have hmdeq := Option.some.inj hmd2
  rw [alookup_names_to_peer_ids s hnd v hv, hmdeq]

/-- Witness for C10 at a concrete input: two validators with distinct
protocol public keys; the two committee views agree on their key sets and on
the peer id stored for the first validator's authority name. -/
theorem committee_views_consistent_witness :
    ((get_sui_committee s_c10).network_metadata.map Prod.fst =
      (get_authority_names_to_peer_ids s_c10).map Prod.fst) ∧
    alookup (get_authority_names_to_peer_ids s_c10) (authority_name v1_c10) =
      some (peer_id_of_network_pubkey v1_c10.narwhal_network_pubkey) := by
  have h := committee_views_consistent s_c10 (by decide)
  refine ⟨h.1, h.2 (authority_name v1_c10)
    { network_pubkey := v1_c10.narwhal_network_pubkey
      network_address := v1_c10.sui_net_address
      p2p_address := v1_c10.p2p_address } (by decide)⟩

end SuiDiscovery
